import Mathlib

/-!
Shallow embedding of `src/snmp_utilities.py` (classes `SnmpQuery` and
`SnmpUtility`).  Python values returned by the SNMP engine are modelled by the
inductive `Value`; Python exceptions by `PyError` together with `Except`;
Python dictionaries (which preserve insertion order and update in place) by
association lists with the insertion function `dictInsert`.  The external
protocol engine (the pysnmp `getCmd`/`nextCmd` handler) is an input: a list of
`Iteration`s, each carrying the error indication, the error status, and the
variable bindings of one response row, exactly the tuple the Python `for`
loop in `SnmpQuery.fetch` destructures.
-/

namespace SnmpUtilities

/-- The domain of raw values handled by the code: Python ints, floats
(modelled as rationals; the embedding does not model IEEE artifacts such as
infinities), strings, `None`, and an opaque non-text/non-numeric payload on
which `int()`, `float()` and `str()` all raise `TypeError`. -/
inductive Value where
  | vInt : Int → Value
  | vFloat : Rat → Value
  | vStr : String → Value
  | vNone : Value
  | vOpaque : Value
deriving DecidableEq, Repr

/-- The Python exceptions raised by the embedded code. -/
inductive PyError where
  | valueError : String → PyError
  | runtimeError : String → PyError
  | attributeError : PyError
  | notImplementedError : PyError
  | indexError : PyError
  | keyError : PyError
deriving DecidableEq, Repr

instance {ε α : Type} [DecidableEq ε] [DecidableEq α] :
    DecidableEq (Except ε α) := fun a b =>
  match a, b with
  | .ok x, .ok y =>
      if h : x = y then isTrue (by rw [h]) else isFalse (by simp [h])
  | .error x, .error y =>
      if h : x = y then isTrue (by rw [h]) else isFalse (by simp [h])
  | .ok _, .error _ => isFalse (by simp)
  | .error _, .ok _ => isFalse (by simp)

/-- A Python dict from full textual names to values, as built by
`SnmpQuery.fetch`: an association list in insertion order. -/
abbrev Record := List (String × Value)

/-- Value of a digit string, for the models of the Python builtins `int()`/`float()`. -/
def digitsToNat (cs : List Char) : Nat :=
  cs.foldl (fun a c => a * 10 + (c.toNat - 48)) 0

/-- Model of the Python builtin `int(s)` on a string: an optional sign followed by a
nonempty run of digits parses; anything else raises `ValueError`
(represented as `none`). -/
def pyIntParse (s : String) : Option Int :=
  match s.data with
  | '+' :: rest =>
      if rest ≠ [] ∧ rest.all Char.isDigit then some (digitsToNat rest) else none
  | '-' :: rest =>
      if rest ≠ [] ∧ rest.all Char.isDigit then some (-(digitsToNat rest : Int)) else none
  | cs =>
      if cs ≠ [] ∧ cs.all Char.isDigit then some (digitsToNat cs) else none

/-- Split a character list at the first '.', keeping what precedes it. -/
def fracSplit (cs : List Char) : Option (List Char × List Char) :=
  match cs with
  | [] => none
  | c :: rest =>
      if c = '.' then some ([], rest)
      else match fracSplit rest with
           | none => none
           | some (a, b) => some (c :: a, b)

/-- Model of the Python builtin `float(s)` on a string, restricted to the decimal forms
`[sign]digits`, `[sign]digits.digits`, `[sign].digits`, `[sign]digits.`
(exponent notation is not needed by any value this repository handles). -/
def pyFloatParse (s : String) : Option Rat :=
  let body : List Char → Option Rat := fun cs =>
    match fracSplit cs with
    | none =>
        if cs ≠ [] ∧ cs.all Char.isDigit then
          some (Rat.divInt (digitsToNat cs) 1)
        else none
    | some (ip, fp) =>
        if (ip.all Char.isDigit ∧ fp.all Char.isDigit) ∧ (ip ≠ [] ∨ fp ≠ []) then
          some (Rat.divInt (digitsToNat ip * 10 ^ fp.length + digitsToNat fp)
            (10 ^ fp.length))
        else none
  match s.data with
  | '+' :: rest => body rest
  | '-' :: rest => (body rest).map (fun q => -q)
  | cs => body cs

/-- The Python builtin `int()` on a float truncates toward zero. -/
def truncRat (q : Rat) : Int :=
  if q < 0 then -((-q).floor) else q.floor

/-- Model of the builtin `int(value)`: `.error ()` stands for the
`ValueError`/`TypeError` the builtin raises. -/
def pyInt : Value → Except Unit Int
  | .vInt n => .ok n
  | .vFloat q => .ok (truncRat q)
  | .vStr s => match pyIntParse s with
               | some n => .ok n
               | none => .error ()
  | .vNone => .error ()
  | .vOpaque => .error ()

/-- Model of the builtin `float(value)`. -/
def pyFloat : Value → Except Unit Rat
  | .vInt n => .ok (Rat.divInt n 1)
  | .vFloat q => .ok q
  | .vStr s => match pyFloatParse s with
               | some q => .ok q
               | none => .error ()
  | .vNone => .error ()
  | .vOpaque => .error ()

/-- Model of the builtin `str(value)`: total on every value except the opaque
payload, whose string conversion raises `TypeError`.  (`cast` only ever
reaches this tier for strings, `None` and the opaque payload, since `int()`
succeeds on ints and floats.) -/
def pyStr : Value → Except Unit String
  | .vInt n => .ok (toString n)
  | .vFloat q => .ok (toString q)
  | .vStr s => .ok s
  | .vNone => .ok "None"
  | .vOpaque => .error ()

/-- Embedding of `SnmpQuery.cast` (src/snmp_utilities.py:31-54): try `int(value)`, on
`ValueError`/`TypeError` try `float(value)`, then `str(value)`; if every
attempt fails return the value unchanged. -/
def cast (value : Value) : Value :=
  match pyInt value with
  | .ok n => .vInt n
  | .error _ =>
      match pyFloat value with
      | .ok q => .vFloat q
      | .error _ =>
          match pyStr value with
          | .ok s => .vStr s
          | .error _ => value

/-- The credential objects the code can build (`hlapi.CommunityData`). -/
inductive Credentials where
  | communityData : String → Credentials
deriving DecidableEq, Repr

/-- Embedding of `SnmpQuery.construct_credentials` (src/snmp_utilities.py:56-69): a
community credential when `v3 is False`, otherwise `raise NotImplementedError`. -/
def construct_credentials (v3 : Bool) (credentials : String) :
    Except PyError Credentials :=
  if v3 = false then .ok (.communityData credentials)
  else .error .notImplementedError

/-- One entry of the `list_of_oids` argument of
`SnmpQuery.construct_object_types`: a plain string (raw OID), a dict
(MIB-name/field pairs, in insertion order), or a value of any other Python
type. -/
inductive OidSpec where
  | str : String → OidSpec
  | dict : List (String × String) → OidSpec
  | other : OidSpec
deriving DecidableEq, Repr

/-- The `hlapi.ObjectIdentity` payload of each constructed
`hlapi.ObjectType`: a raw dotted path, an unindexed `(mib, symbol)` pair, or
an indexed `(mib, symbol, index)` triple. -/
inductive ObjectIdentity where
  | raw : String → ObjectIdentity
  | symbolic : String → String → ObjectIdentity
  | symbolicIndexed : String → String → String → ObjectIdentity
deriving DecidableEq, Repr

/-- Membership test for the dot character on a Python string. -/
def hasDot (cs : List Char) : Bool := cs.any (fun c => c = '.')

/-- Model of the Python split of `value` at each dot: every maximal run between dots,
empty runs included; a dotless string yields the one-element list `[value]`. -/
def pySplitDot : List Char → List (List Char)
  | [] => [[]]
  | c :: rest =>
      let r := pySplitDot rest
      if c = '.' then [] :: r
      else match r with
           | [] => [[c]]
           | h :: t => (c :: h) :: t

/-- The dict branch of `construct_object_types`, iterating `oid.items()`. -/
def procDictItems : List (String × String) → Except PyError (List ObjectIdentity)
  | [] => .ok []
  | (key, value) :: rest =>
      if hasDot value.data then
        match pySplitDot value.data with
        | [a, b] =>
            match procDictItems rest with
            | .error e => .error e
            | .ok l => .ok (.symbolicIndexed key ⟨a⟩ ⟨b⟩ :: l)
        | _ => .error (.valueError "Error in construct_object_types(): Invalid SNMP value")
      else
        match procDictItems rest with
        | .error e => .error e
        | .ok l => .ok (.symbolic key value :: l)

/-- Embedding of `SnmpQuery.construct_object_types` (src/snmp_utilities.py:71-120): a
string entry appends a raw `ObjectIdentity`; a dict entry is resolved per
item, splitting `value` at each dot and raising `ValueError` unless the split
has exactly two parts; an entry of any other type matches neither `if` and
is skipped. -/
def construct_object_types : List OidSpec → Except PyError (List ObjectIdentity)
  | [] => .ok []
  | oid :: rest =>
      let this : Except PyError (List ObjectIdentity) :=
        match oid with
        | .str s => .ok [.raw s]
        | .dict items => procDictItems items
        | .other => .ok []
      match this with
      | .error e => .error e
      | .ok objs =>
          match construct_object_types rest with
          | .error e => .error e
          | .ok l => .ok (objs ++ l)

/-- One yield of the pysnmp command generator, the tuple
`(error_indication, error_status, error_index, var_binds)` destructured by
`SnmpQuery.fetch` (`error_index` is never read by the code and is omitted).
`errorIndication` is `None` or an indication text; `errorStatus` is the
protocol error-status integer (`0` = no error); `varBinds` pairs each
binding (its full name as printed by `prettyPrint`) with its raw value. -/
structure Iteration where
  errorIndication : Option String
  errorStatus : Nat
  varBinds : List (String × Value)
deriving DecidableEq, Repr

/-- Python truthiness of the `error_indication` slot: `None` and the empty
string are falsy, any other text truthy. -/
def truthyOpt : Option String → Bool
  | none => false
  | some s => !s.isEmpty

/-- Model of the format call applied to the error indication inside the
raised message of `fetch`: `None` renders as the text `"None"`. -/
def pyFormat : Option String → String
  | none => "None"
  | some s => s

/-- Assignment on a Python dict: update in place when the key exists,
otherwise append at the end (insertion order). -/
def dictInsert (d : List (String × Value)) (k : String) (v : Value) :
    List (String × Value) :=
  match d with
  | [] => [(k, v)]
  | (k', v') :: rest =>
      if k' = k then (k, v) :: rest else (k', v') :: dictInsert rest k v

/-- Subscript lookup on a Python dict (`none` stands for `KeyError`). -/
def dictLookup (d : List (String × Value)) (k : String) : Option Value :=
  match d with
  | [] => none
  | (k', v) :: rest => if k' = k then some v else dictLookup rest k

/-- The inner loop of `SnmpQuery.fetch`: start from an empty dict, then
`items[str(var_bind[0].prettyPrint())] = self.cast(var_bind[1])` per binding. -/
def buildItems (varBinds : List (String × Value)) : Record :=
  varBinds.foldl (fun d kv => dictInsert d kv.1 (cast kv.2)) []

/-- Embedding of `SnmpQuery.fetch` (src/snmp_utilities.py:122-148): iterate the handler;
a row with falsy `error_indication` and falsy `error_status` contributes one
dict of cast bindings to the result list; any other row raises
a `RuntimeError` whose message appends the formatted error indication to
the text `Got SNMP error: `, discarding
every dict built so far.  (The dead `except StopIteration: break` inside the
loop body is unreachable and not modelled.) -/
def fetch : List Iteration → Except PyError (List Record)
  | [] => .ok []
  | it :: rest =>
      if truthyOpt it.errorIndication = false ∧ it.errorStatus = 0 then
        match fetch rest with
        | .error e => .error e
        | .ok rs => .ok (buildItems it.varBinds :: rs)
      else
        .error (.runtimeError ("Got SNMP error: " ++ pyFormat it.errorIndication))

/-- Embedding of `SnmpQuery.get` (src/snmp_utilities.py:150-182): build the object types
for `oids` (which may raise), hand the response rows of the engine to `fetch`.
The network exchange itself is external: `handler` is its modelled output. -/
def get (oids : List OidSpec) (handler : List Iteration) :
    Except PyError (List Record) :=
  match construct_object_types oids with
  | .error e => .error e
  | .ok _ => fetch handler

/-- Embedding of `SnmpQuery.get_next` (src/snmp_utilities.py:207-237): identical shape to
`get` but the handler is a `nextCmd` walk, one row per instance index. -/
def get_next (oids : List OidSpec) (handler : List Iteration) :
    Except PyError (List Record) :=
  match construct_object_types oids with
  | .error e => .error e
  | .ok _ => fetch handler

/-- Regex-lookahead side condition of `(?=\.)` reachability: the pattern
`.*?` cannot cross a newline, so a match at this position needs a `'.'`
before any `'\n'`. -/
def dotBeforeNl : List Char → Bool
  | [] => false
  | c :: rest => if c = '.' then true else if c = '\n' then false else dotBeforeNl rest

/-- The lazy regex group: all characters up to the first dot. -/
def takeUntilDot : List Char → List Char
  | [] => []
  | c :: rest => if c = '.' then [] else c :: takeUntilDot rest

/-- Model of the regex search performed by `get_brief_name` (lookbehind for
two colons, lazy group, lookahead for a dot): the earliest position immediately
preceded by two colons and followed (lazily) by a dot; `none` when no position
matches, in which case the Python `re.search` call returned `None`. -/
def briefSearch : List Char → Option (List Char)
  | c1 :: c2 :: rest =>
      if c1 = ':' ∧ c2 = ':' ∧ dotBeforeNl rest then some (takeUntilDot rest)
      else briefSearch (c2 :: rest)
  | _ => none

/-- Embedding of `SnmpQuery.get_brief_name` (src/snmp_utilities.py:184-205): search for
the group between `::` and the next `.`; when the search fails the code
calls `.group()` on `None`, raising `AttributeError`.  On success the group
is always a `str`, so the `type(...) is not str` guard (and its
`ValueError` whose message says the string was not in the correct format)
can never fire. -/
def get_brief_name (full_name : String) : Except PyError String :=
  match briefSearch full_name.data with
  | none => .error .attributeError
  | some g => .ok ⟨g⟩

/-- The fixed, ordered list of 18 interface-statistics symbols queried by
`SnmpUtility.get_snmp_interfaces` (src/snmp_utilities.py:299-319). -/
def interfaceOids : List OidSpec :=
  [.dict [("IF-MIB", "ifIndex")],
   .dict [("IF-MIB", "ifName")],
   .dict [("IF-MIB", "ifType")],
   .dict [("IF-MIB", "ifAdminStatus")],
   .dict [("IF-MIB", "ifOperStatus")],
   .dict [("IF-MIB", "ifHCInOctets")],
   .dict [("IF-MIB", "ifHCInUcastPkts")],
   .dict [("IF-MIB", "ifHCInMulticastPkts")],
   .dict [("IF-MIB", "ifHCInBroadcastPkts")],
   .dict [("IF-MIB", "ifHCOutOctets")],
   .dict [("IF-MIB", "ifHCOutUcastPkts")],
   .dict [("IF-MIB", "ifHCOutMulticastPkts")],
   .dict [("IF-MIB", "ifHCOutBroadcastPkts")],
   .dict [("IF-MIB", "ifInDiscards")],
   .dict [("IF-MIB", "ifInErrors")],
   .dict [("IF-MIB", "ifInUnknownProtos")],
   .dict [("IF-MIB", "ifOutDiscards")],
   .dict [("IF-MIB", "ifOutErrors")]]

/-- The OID list of `SnmpUtility.get_snmp_name` (src/snmp_utilities.py:344-347). -/
def sysNameOids : List OidSpec := [.dict [("SNMPv2-MIB", "sysName.0")]]

/-- Embedding of `SnmpUtility.get_snmp_name` (src/snmp_utilities.py:338-349): GET the
device name and return the entry of the first result dict under the full
name `SNMPv2-MIB::sysName.0`.  Indexing
`[0]` on an empty list raises `IndexError`; a missing key raises `KeyError`.
`nameHandler` models the response of the engine to this GET. -/
def get_snmp_name (community : String) (nameHandler : List Iteration) :
    Except PyError Value :=
  match construct_credentials false community with
  | .error e => .error e
  | .ok _ =>
      match get sysNameOids nameHandler with
      | .error e => .error e
      | .ok host_name =>
          match host_name with
          | [] => .error .indexError
          | r :: _ =>
              match dictLookup r "SNMPv2-MIB::sysName.0" with
              | none => .error .keyError
              | some v => .ok v

/-- The inner loop of `get_snmp_interfaces` over one interface entry:
`fields[self.get_brief_name(key)] = value` for each key/value of the entry
(in dict insertion order). -/
def addFields : List (String × Value) → Record → Except PyError Record
  | [], fields => .ok fields
  | (key, value) :: rest, fields =>
      match get_brief_name key with
      | .error e => .error e
      | .ok bk => addFields rest (dictInsert fields bk value)

/-- The outer loop of `get_snmp_interfaces` over the list of interface
entries: per entry, a fresh dict receives a `host` entry holding the result
of `get_snmp_name`, then the brief-named measurement fields. -/
def interfacesLoop (community : String) (nameHandler : List Iteration) :
    List Record → Except PyError (List Record)
  | [] => .ok []
  | entry :: rest =>
      match get_snmp_name community nameHandler with
      | .error e => .error e
      | .ok name =>
          match addFields entry [("host", name)] with
          | .error e => .error e
          | .ok fields =>
              match interfacesLoop community nameHandler rest with
              | .error e => .error e
              | .ok l => .ok (fields :: l)

/-- Embedding of `SnmpUtility.get_snmp_interfaces` (src/snmp_utilities.py:267-336): walk
the 18 interface symbols with `get_next`, then rebuild each returned entry
keyed by brief names with an injected `host` field.  `ifHandler` models the
walk response; `nameHandler` the response to each inner `sysName.0` GET. -/
def get_snmp_interfaces (community : String)
    (ifHandler nameHandler : List Iteration) : Except PyError (List Record) :=
  match construct_credentials false community with
  | .error e => .error e
  | .ok _ =>
      match get_next interfaceOids ifHandler with
      | .error e => .error e
      | .ok interface_entries => interfacesLoop community nameHandler interface_entries

/-- Rejoin a dot-split: inverse of `pySplitDot`, used to state that the two
parts of an indexed field reassemble to the original field. -/
def joinDot : List (List Char) → List Char
  | [] => []
  | [x] => x
  | x :: xs => x ++ '.' :: joinDot xs

/-- The error condition of one `fetch` row, Python truthiness of
`error_indication or error_status`. -/
def iterErr (it : Iteration) : Bool :=
  truthyOpt it.errorIndication || (it.errorStatus != 0)

theorem iterErr_false_iff (it : Iteration) :
    iterErr it = false ↔
      (truthyOpt it.errorIndication = false ∧ it.errorStatus = 0) := by
  simp [iterErr]

theorem fetch_ok_of_no_err (its : List Iteration)
    (h : ∀ it ∈ its, iterErr it = false) :
    fetch its = .ok (its.map fun it => buildItems it.varBinds) := by
  induction its with
  | nil => rfl
  | cons it rest ih =>
      have h1 := (iterErr_false_iff it).mp (h it (List.mem_cons_self it rest))
      have h2 : ∀ x ∈ rest, iterErr x = false :=
        fun x hx => h x (List.mem_cons_of_mem it hx)
      simp [fetch, h1.1, h1.2, ih h2]

theorem fetch_ok_inv (its : List Iteration) (rs : List Record)
    (h : fetch its = .ok rs) :
    rs = its.map (fun it => buildItems it.varBinds) ∧
      ∀ it ∈ its, iterErr it = false := by
  induction its generalizing rs with
  | nil =>
      simp [fetch] at h
      simp [← h]
  | cons it rest ih =>
      by_cases hc : truthyOpt it.errorIndication = false ∧ it.errorStatus = 0
      · rw [fetch, if_pos hc] at h
        cases hfr : fetch rest with
        | error e => rw [hfr] at h; exact absurd h (by simp)
        | ok rs' =>
            rw [hfr] at h
            obtain ⟨h1, h2⟩ := ih rs' hfr
            have hrs : rs = buildItems it.varBinds :: rs' := by
              simpa using h.symm
            subst hrs
            refine ⟨by simp [h1], ?_⟩
            intro x hx
            rcases List.mem_cons.mp hx with hx | hx
            · subst hx; exact (iterErr_false_iff x).mpr hc
            · exact h2 x hx
      · rw [fetch, if_neg hc] at h
        exact absurd h (by simp)

/-- C3: for every value, `cast` returns the integer conversion when the
builtin integer conversion succeeds; otherwise the float conversion when
that succeeds; otherwise the string conversion when that succeeds; otherwise
the value unchanged — no exception escapes (in the embedding, `cast` is a
total function into `Value` even though each tier is fallible), and in
particular the string forty-two casts to the integer, three-point-one-four
to the float, and a plain word stays a string. -/
theorem C3_cast_tiered :
    (∀ v : Value, ∀ n : Int, pyInt v = .ok n → cast v = .vInt n)
    ∧ (∀ v : Value, ∀ q : Rat, pyInt v = .error () → pyFloat v = .ok q →
        cast v = .vFloat q)
    ∧ (∀ v : Value, ∀ s : String, pyInt v = .error () → pyFloat v = .error () →
        pyStr v = .ok s → cast v = .vStr s)
    ∧ (∀ v : Value, pyInt v = .error () → pyFloat v = .error () →
        pyStr v = .error () → cast v = v)
    ∧ cast (.vStr "42") = .vInt 42
    ∧ cast (.vStr "3.14") = .vFloat (Rat.divInt 157 50)
    ∧ cast (.vStr "abc") = .vStr "abc"
    ∧ cast .vOpaque = .vOpaque := by
  refine ⟨?_, ?_, ?_, ?_, by decide, by decide, by decide, by decide⟩
  · intro v n h
    simp [cast, h]
  · intro v q h1 h2
    simp [cast, h1, h2]
  · intro v s h1 h2 h3
    simp [cast, h1, h2, h3]
  · intro v h1 h2 h3
    simp [cast, h1, h2, h3]

/-- Witness for C3: the tier implications applied at concrete inputs — an
integer literal string, a string reaching the float tier, and the value
`None`, whose only successful tier is the string conversion. -/
theorem C3_witness :
    cast (.vStr "42") = .vInt 42
    ∧ cast (.vStr "3.14") = .vFloat (Rat.divInt 157 50)
    ∧ cast .vNone = .vStr "None" :=
  ⟨C3_cast_tiered.1 (.vStr "42") 42 rfl,
   C3_cast_tiered.2.1 (.vStr "3.14") (Rat.divInt 157 50) rfl rfl,
   C3_cast_tiered.2.2.1 .vNone "None" rfl rfl rfl⟩

/-- C7: credential construction returns a shared-secret (community)
credential for the simple form (`v3 = False`) and fails fast with
`NotImplementedError` (the `NotSupported` error of the spec) for the v3
form, constructing nothing. -/
theorem C7_credentials (credentials : String) :
    construct_credentials false credentials
        = .ok (.communityData credentials)
    ∧ construct_credentials true credentials = .error .notImplementedError :=
  ⟨rfl, rfl⟩

/-- C10: an entry of `list_of_oids` that is neither a string nor a dict
matches neither type test and is silently skipped: deleting it from the
input leaves the result of `construct_object_types` unchanged, so it
contributes no descriptor and raises no error. -/
theorem C10_skip_other (l1 l2 : List OidSpec) :
    construct_object_types (l1 ++ OidSpec.other :: l2)
      = construct_object_types (l1 ++ l2) := by
  induction l1 with
  | nil =>
      show construct_object_types (OidSpec.other :: l2) = _
      simp only [construct_object_types, List.nil_append]
      cases h : construct_object_types l2 <;> simp [h]
  | cons oid l1 ih =>
      simp only [List.cons_append, construct_object_types, List.append_eq, ih]

/-- Counterexample to C1: normalizing the single binding of the name
`IF-MIB::ifIndex.3` to the integer three through `get` yields a one-element
LIST of dicts keyed by the FULL name — it is wrapped, not the collapsed bare
Record keyed by `ifIndex` that the claim describes. -/
theorem C1_counterexample :
    get [.dict [("IF-MIB", "ifIndex.3")]]
        [⟨none, 0, [("IF-MIB::ifIndex.3", Value.vInt 3)]⟩]
      = .ok [[("IF-MIB::ifIndex.3", Value.vInt 3)]]
    ∧ ([[("IF-MIB::ifIndex.3", Value.vInt 3)]] : List Record).length = 1
    ∧ ([("IF-MIB::ifIndex.3", Value.vInt 3)] : Record)
        ≠ [("ifIndex", Value.vInt 3)] :=
  ⟨by decide, rfl, by decide⟩

/-- C1 amended: for every normalization input consisting of exactly one
error-free response row, the pipeline returns a ONE-ELEMENT sequence
containing the Record built from that row (keyed by full names); no
collapsing to a bare Record ever happens. -/
theorem C1_single_wrapped (it : Iteration)
    (h1 : truthyOpt it.errorIndication = false) (h2 : it.errorStatus = 0) :
    fetch [it] = .ok [buildItems it.varBinds] := by
  simp [fetch, h1, h2]

/-- Witness for the amended C1 at the single binding of the claim. -/
theorem C1_witness :
    fetch [⟨none, 0, [("IF-MIB::ifIndex.3", Value.vInt 3)]⟩]
      = .ok [buildItems [("IF-MIB::ifIndex.3", Value.vInt 3)]] :=
  C1_single_wrapped ⟨none, 0, [("IF-MIB::ifIndex.3", Value.vInt 3)]⟩ rfl rfl

/-- C5: when some row of the handler carries an engine error indication or a
nonzero error status, `fetch` fails with a single `RuntimeError` (the
`QueryFailed` error of the spec) carrying the formatted error indication of
the first failing row, and returns no partial result list alongside it. -/
theorem C5_query_failed (its : List Iteration) (it : Iteration)
    (h : its.find? iterErr = some it) :
    fetch its
      = .error (.runtimeError ("Got SNMP error: " ++ pyFormat it.errorIndication))
    ∧ ∀ rs : List Record, fetch its ≠ .ok rs := by
  induction its with
  | nil => simp [List.find?] at h
  | cons x rest ih =>
      by_cases hx : iterErr x = true
      · rw [List.find?_cons_of_pos _ hx] at h
        have hxit : x = it := by simpa using h
        subst hxit
        have hcond : ¬(truthyOpt x.errorIndication = false ∧ x.errorStatus = 0) := by
          intro hc
          rw [(iterErr_false_iff x).mpr hc] at hx
          exact Bool.false_ne_true hx
        refine ⟨by rw [fetch, if_neg hcond], ?_⟩
        intro rs
        rw [fetch, if_neg hcond]
        simp
      · have hx' : iterErr x = false := Bool.eq_false_iff.mpr hx
        rw [List.find?_cons_of_neg _ (by simp [hx'])] at h
        obtain ⟨h1, h2⟩ := ih h
        have hcond : truthyOpt x.errorIndication = false ∧ x.errorStatus = 0 :=
          (iterErr_false_iff x).mp hx'
        refine ⟨by rw [fetch, if_pos hcond, h1], ?_⟩
        intro rs
        rw [fetch, if_pos hcond, h1]
        simp

/-- Witness for C5: a timeout indication in the only row makes `fetch` fail
with the formatted indication text and no results. -/
theorem C5_witness :
    fetch [⟨some "No SNMP response received before timeout", 1, []⟩]
      = .error (.runtimeError
          "Got SNMP error: No SNMP response received before timeout") := by
  have h := (C5_query_failed
    [⟨some "No SNMP response received before timeout", 1, []⟩]
    ⟨some "No SNMP response received before timeout", 1, []⟩ (by decide)).1
  exact h.trans (by decide)

/-- C6 at the failing input: a walk response whose second binding name
`IF-MIB::ifSpecial` has no dot after the namespace separator makes
`get_snmp_interfaces` abort for the whole batch with `AttributeError`
(raised by calling `.group()` on the failed regex match) — no partial
result list is returned and nothing is dropped — whereas the intended
`MalformedIdentifier` error of the claim is the `ValueError` of
`get_brief_name`, which is unreachable: `AttributeError` is a different
exception from any `ValueError`. -/
theorem C6_unparseable_aborts :
    get_snmp_interfaces "public"
        [⟨none, 0, [("IF-MIB::ifIndex.1", Value.vInt 1),
                    ("IF-MIB::ifSpecial", Value.vInt 7)]⟩]
        [⟨none, 0, [("SNMPv2-MIB::sysName.0", Value.vStr "router1")]⟩]
      = .error .attributeError
    ∧ get_brief_name "IF-MIB::ifSpecial" = .error .attributeError
    ∧ ∀ msg : String,
        (Except.error PyError.attributeError : Except PyError (List Record))
          ≠ .error (.valueError msg) := by
  refine ⟨by decide, by decide, ?_⟩
  intro msg
  simp

/-- Counterexample to C8: on the two-index walk of the claim the first
returned Record is not exactly the three interface fields — every Record
also carries the injected `host` field, so the claimed sequence is not the
output. -/
theorem C8_counterexample :
    get_snmp_interfaces "public"
        [⟨none, 0, [("IF-MIB::ifIndex.1", Value.vInt 1),
                    ("IF-MIB::ifName.1", Value.vStr "eth0"),
                    ("IF-MIB::ifType.1", Value.vInt 6)]⟩,
         ⟨none, 0, [("IF-MIB::ifIndex.2", Value.vInt 2),
                    ("IF-MIB::ifName.2", Value.vStr "eth1"),
                    ("IF-MIB::ifType.2", Value.vInt 6)]⟩]
        [⟨none, 0, [("SNMPv2-MIB::sysName.0", Value.vStr "router1")]⟩]
      = .ok [[("host", Value.vStr "router1"), ("ifIndex", Value.vInt 1),
              ("ifName", Value.vStr "eth0"), ("ifType", Value.vInt 6)],
             [("host", Value.vStr "router1"), ("ifIndex", Value.vInt 2),
              ("ifName", Value.vStr "eth1"), ("ifType", Value.vInt 6)]]
    ∧ ([("host", Value.vStr "router1"), ("ifIndex", Value.vInt 1),
        ("ifName", Value.vStr "eth0"), ("ifType", Value.vInt 6)] : Record)
        ≠ [("ifIndex", Value.vInt 1), ("ifName", Value.vStr "eth0"),
           ("ifType", Value.vInt 6)] :=
  ⟨by decide, by decide⟩

/-- C8 amended: the output sequence preserves the first-seen order of the
response rows (one Record per row, in order), and the two-row walk of the
claim yields exactly the 2-element ordered sequence of Records keyed by
short field names — each additionally carrying the injected `host` field. -/
theorem C8_amended :
    (∀ its : List Iteration, (∀ it ∈ its, iterErr it = false) →
        fetch its = .ok (its.map fun it => buildItems it.varBinds))
    ∧ get_snmp_interfaces "public"
        [⟨none, 0, [("IF-MIB::ifIndex.1", Value.vInt 1),
                    ("IF-MIB::ifName.1", Value.vStr "eth0"),
                    ("IF-MIB::ifType.1", Value.vInt 6)]⟩,
         ⟨none, 0, [("IF-MIB::ifIndex.2", Value.vInt 2),
                    ("IF-MIB::ifName.2", Value.vStr "eth1"),
                    ("IF-MIB::ifType.2", Value.vInt 6)]⟩]
        [⟨none, 0, [("SNMPv2-MIB::sysName.0", Value.vStr "router1")]⟩]
      = .ok [[("host", Value.vStr "router1"), ("ifIndex", Value.vInt 1),
              ("ifName", Value.vStr "eth0"), ("ifType", Value.vInt 6)],
             [("host", Value.vStr "router1"), ("ifIndex", Value.vInt 2),
              ("ifName", Value.vStr "eth1"), ("ifType", Value.vInt 6)]] :=
  ⟨fetch_ok_of_no_err, by decide⟩

/-- Witness for the amended C8: order preservation applied to a concrete
two-row walk. -/
theorem C8_witness :
    fetch [⟨none, 0, [("IF-MIB::ifIndex.1", Value.vInt 1)]⟩,
           ⟨none, 0, [("IF-MIB::ifIndex.2", Value.vInt 2)]⟩]
      = .ok [buildItems [("IF-MIB::ifIndex.1", Value.vInt 1)],
             buildItems [("IF-MIB::ifIndex.2", Value.vInt 2)]] :=
  C8_amended.1
    [⟨none, 0, [("IF-MIB::ifIndex.1", Value.vInt 1)]⟩,
     ⟨none, 0, [("IF-MIB::ifIndex.2", Value.vInt 2)]⟩] (by decide)

theorem pySplitDot_ne_nil (cs : List Char) : pySplitDot cs ≠ [] := by
  induction cs with
  | nil => simp [pySplitDot]
  | cons c rest ih =>
      simp only [pySplitDot]
      split
      · simp
      · split
        · simp
        · simp

theorem joinDot_cons_cons (c : Char) (h : List Char) (t : List (List Char)) :
    joinDot ((c :: h) :: t) = c :: joinDot (h :: t) := by
  cases t <;> simp [joinDot]

theorem joinDot_pySplitDot (cs : List Char) : joinDot (pySplitDot cs) = cs := by
  induction cs with
  | nil => rfl
  | cons c rest ih =>
      by_cases hc : c = '.'
      · subst hc
        obtain ⟨h, t, hr⟩ := List.exists_cons_of_ne_nil (pySplitDot_ne_nil rest)
        simp only [pySplitDot, if_pos rfl, hr]
        rw [hr] at ih
        simp [joinDot, ih]
      · obtain ⟨h, t, hr⟩ := List.exists_cons_of_ne_nil (pySplitDot_ne_nil rest)
        simp only [pySplitDot, if_neg hc, hr]
        rw [joinDot_cons_cons, ← hr, ih]

theorem length_pySplitDot (cs : List Char) :
    (pySplitDot cs).length = cs.count '.' + 1 := by
  induction cs with
  | nil => rfl
  | cons c rest ih =>
      by_cases hc : c = '.'
      · subst hc
        simp [pySplitDot, List.count_cons, ih]
      · obtain ⟨h, t, hr⟩ := List.exists_cons_of_ne_nil (pySplitDot_ne_nil rest)
        simp only [pySplitDot, if_neg hc, hr]
        rw [hr] at ih
        simp only [List.length_cons] at ih ⊢
        rw [ih, List.count_cons]
        simp [Ne.symm hc, hc]

theorem hasDot_iff (cs : List Char) : hasDot cs = true ↔ '.' ∈ cs := by
  simp [hasDot]

theorem hasDot_false_iff (cs : List Char) :
    hasDot cs = false ↔ '.' ∉ cs := by
  rw [← hasDot_iff]
  simp

/-- C4: for a symbolic `(namespace, field)` pair, the resolver produces an
indexed descriptor splitting `field` at its only dot (with the two parts
reassembling to `field`) when `field` has exactly one dot, an unindexed
descriptor when it has none, and fails with the `ValueError` of the source
(the `InvalidIdentifier` error of the spec) producing no descriptor when it
has two or more. -/
theorem C4_resolver (key value : String) :
    (value.data.count '.' = 1 →
        ∃ sym idx : String,
          construct_object_types [.dict [(key, value)]]
              = .ok [.symbolicIndexed key sym idx]
            ∧ sym ++ "." ++ idx = value)
    ∧ (value.data.count '.' = 0 →
        construct_object_types [.dict [(key, value)]]
          = .ok [.symbolic key value])
    ∧ (2 ≤ value.data.count '.' →
        construct_object_types [.dict [(key, value)]]
          = .error (.valueError
              "Error in construct_object_types(): Invalid SNMP value")) := by
  refine ⟨?_, ?_, ?_⟩
  · intro h1
    have hlen : (pySplitDot value.data).length = 2 := by
      rw [length_pySplitDot, h1]
    obtain ⟨a, b, hab⟩ := List.length_eq_two.mp hlen
    have hdot : hasDot value.data = true := by
      rw [hasDot_iff]
      have : value.data.count '.' ≠ 0 := by omega
      exact List.count_pos_iff.mp (by omega)
    refine ⟨⟨a⟩, ⟨b⟩, ?_, ?_⟩
    · simp [construct_object_types, procDictItems, hdot, hab]
    · have hj := joinDot_pySplitDot value.data
      rw [hab] at hj
      have hj' : a ++ '.' :: b = value.data := by simpa [joinDot] using hj
      apply String.ext
      simpa using hj'
  · intro h0
    have hdot : hasDot value.data = false := by
      rw [hasDot_false_iff]
      exact (List.count_eq_zero).mp h0
    simp [construct_object_types, procDictItems, hdot]
  · intro h2
    have hlen : 3 ≤ (pySplitDot value.data).length := by
      rw [length_pySplitDot]
      omega
    have hdot : hasDot value.data = true := by
      rw [hasDot_iff]
      exact List.count_pos_iff.mp (by omega)
    match hsp : pySplitDot value.data with
    | [] => rw [hsp] at hlen; simp at hlen
    | [x] => rw [hsp] at hlen; simp at hlen
    | [x, y] => rw [hsp] at hlen; simp at hlen
    | x :: y :: z :: t =>
        simp [construct_object_types, procDictItems, hdot, hsp]

/-- Witness for C4: the one-dot field of the spec example splits into symbol
and index that reassemble to it; a dotless field resolves unindexed; a
two-dot field raises the `ValueError`. -/
theorem C4_witness :
    (∃ sym idx : String,
        construct_object_types [.dict [("READYNASOS-MIB", "ataError.3")]]
            = .ok [.symbolicIndexed "READYNASOS-MIB" sym idx]
          ∧ sym ++ "." ++ idx = "ataError.3")
    ∧ construct_object_types [.dict [("IF-MIB", "ifIndex")]]
        = .ok [.symbolic "IF-MIB" "ifIndex"]
    ∧ construct_object_types [.dict [("A", "x.y.z")]]
        = .error (.valueError
            "Error in construct_object_types(): Invalid SNMP value") :=
  ⟨(C4_resolver "READYNASOS-MIB" "ataError.3").1 (by decide),
   (C4_resolver "IF-MIB" "ifIndex").2.1 (by decide),
   (C4_resolver "A" "x.y.z").2.2 (by decide)⟩

theorem dotBeforeNl_append_dot (xs ys : List Char)
    (h : ∀ c ∈ xs, c ≠ '.' ∧ c ≠ '\n') :
    dotBeforeNl (xs ++ '.' :: ys) = true := by
  induction xs with
  | nil => simp [dotBeforeNl]
  | cons c xs ih =>
      have hc := h c (List.mem_cons_self c xs)
      simp only [List.cons_append, dotBeforeNl, if_neg hc.1, if_neg hc.2]
      exact ih fun x hx => h x (List.mem_cons_of_mem c hx)

theorem takeUntilDot_append (xs ys : List Char) (h : ∀ c ∈ xs, c ≠ '.') :
    takeUntilDot (xs ++ '.' :: ys) = xs := by
  induction xs with
  | nil => simp [takeUntilDot]
  | cons c xs ih =>
      have hc := h c (List.mem_cons_self c xs)
      simp only [List.cons_append, takeUntilDot, if_neg hc, List.append_eq]
      rw [ih fun x hx => h x (List.mem_cons_of_mem c hx)]

theorem dotBeforeNl_of_no_dot (cs : List Char) (h : ∀ c ∈ cs, c ≠ '.') :
    dotBeforeNl cs = false := by
  induction cs with
  | nil => rfl
  | cons c cs ih =>
      have hc := h c (List.mem_cons_self c cs)
      simp only [dotBeforeNl, if_neg hc]
      split
      · rfl
      · exact ih fun x hx => h x (List.mem_cons_of_mem c hx)

theorem briefSearch_skip (cs tail : List Char) (h : ∀ c ∈ cs, c ≠ ':') :
    briefSearch (cs ++ ':' :: ':' :: tail) = briefSearch (':' :: ':' :: tail) := by
  induction cs with
  | nil => rfl
  | cons c cs ih =>
      have hc := h c (List.mem_cons_self c cs)
      cases hcl : cs ++ ':' :: ':' :: tail with
      | nil => simp at hcl
      | cons x xs =>
          have : briefSearch (c :: x :: xs) = briefSearch (x :: xs) := by
            simp only [briefSearch]
            rw [if_neg (by simp [hc])]
          rw [List.cons_append, hcl, this, ← hcl,
            ih fun y hy => h y (List.mem_cons_of_mem c hy)]

theorem briefSearch_of_no_dot (cs : List Char) (h : ∀ c ∈ cs, c ≠ '.') :
    briefSearch cs = none := by
  induction cs with
  | nil => rfl
  | cons c cs ih =>
      cases cs with
      | nil => rfl
      | cons c2 rest =>
          have hrest : dotBeforeNl rest = false :=
            dotBeforeNl_of_no_dot rest fun x hx =>
              h x (List.mem_cons_of_mem c (List.mem_cons_of_mem c2 hx))
          simp only [briefSearch]
          rw [if_neg (by simp [hrest])]
          exact ih fun x hx => h x (List.mem_cons_of_mem c hx)

/-- Counterexample to C2: the unindexed full name `NS::field` does not yield
the short name `field`; the regex search finds no match and the code raises
`AttributeError` by calling `.group()` on `None`. -/
theorem C2_counterexample :
    get_brief_name "NS::field" = .error .attributeError
    ∧ get_brief_name "NS::field" ≠ .ok "field" :=
  ⟨by decide, by decide⟩

/-- C2 amended: for an index-bearing full name (a namespace free of colons,
the separator, a short name free of dots and newlines, a dot, and the rest),
extraction returns the substring between the separator and the following
dot; but for a full name carrying no dot at all (in particular the unindexed
form), extraction does not return the remainder after the separator — it
fails with `AttributeError`. -/
theorem C2_brief_name (ns brief rest : String)
    (hns : ∀ c ∈ ns.data, c ≠ ':')
    (hbrief : ∀ c ∈ brief.data, c ≠ '.' ∧ c ≠ '\n') :
    get_brief_name (ns ++ "::" ++ brief ++ "." ++ rest) = .ok brief
    ∧ ∀ s : String, (∀ c ∈ s.data, c ≠ '.') →
        get_brief_name s = .error .attributeError := by
  constructor
  · have hdata : (ns ++ "::" ++ brief ++ "." ++ rest).data
        = ns.data ++ ':' :: ':' :: (brief.data ++ '.' :: rest.data) := by
      have h2 : ("::" : String).data = [':', ':'] := rfl
      have h3 : ("." : String).data = ['.'] := rfl
      simp [String.data_append, h2, h3]
    have hdot : dotBeforeNl (brief.data ++ '.' :: rest.data) = true :=
      dotBeforeNl_append_dot brief.data rest.data hbrief
    have hbs : briefSearch (ns ++ "::" ++ brief ++ "." ++ rest).data
        = some brief.data := by
      rw [hdata, briefSearch_skip ns.data _ hns]
      simp only [briefSearch]
      rw [if_pos (by simp [hdot]),
        takeUntilDot_append brief.data rest.data fun c hc => (hbrief c hc).1]
    simp only [get_brief_name, hbs]
  · intro s hs
    simp only [get_brief_name, briefSearch_of_no_dot s.data hs]

/-- Witness for the amended C2: the spec example full name yields its short
name, and a dotless (unindexed) name fails with `AttributeError`. -/
theorem C2_witness :
    get_brief_name "READYNASOS-MIB::ataError.3" = .ok "ataError"
    ∧ get_brief_name "NS-MIB::sysDescr" = .error .attributeError := by
  have h := C2_brief_name "READYNASOS-MIB" "ataError" "3" (by decide) (by decide)
  have heq : ("READYNASOS-MIB" ++ "::" ++ "ataError" ++ "." ++ "3" : String)
      = "READYNASOS-MIB::ataError.3" := by decide
  refine ⟨?_, h.2 "NS-MIB::sysDescr" (by decide)⟩
  rw [← heq]
  exact h.1

theorem dictLookup_dictInsert_ne (d : List (String × Value)) (k k' : String)
    (v : Value) (h : k ≠ k') :
    dictLookup (dictInsert d k v) k' = dictLookup d k' := by
  induction d with
  | nil => simp [dictInsert, dictLookup, h]
  | cons p d ih =>
      obtain ⟨a, b⟩ := p
      by_cases hak : a = k
      · subst hak
        simp [dictInsert, dictLookup, h]
      · by_cases h2 : a = k'
        · simp [dictInsert, dictLookup, hak, h2, Ne.symm h]
        · simp [dictInsert, dictLookup, hak, h2, ih]

theorem mem_dictInsert (d : List (String × Value)) (k : String) (v : Value)
    (p : String × Value) (hp : p ∈ dictInsert d k v) : p.1 = k ∨ p ∈ d := by
  induction d with
  | nil =>
      simp [dictInsert] at hp
      left
      rw [hp]
  | cons q d ih =>
      obtain ⟨a, b⟩ := q
      by_cases hak : a = k
      · subst hak
        simp only [dictInsert, if_pos rfl] at hp
        rcases List.mem_cons.mp hp with hp | hp
        · left; rw [hp]
        · right; exact List.mem_cons_of_mem _ hp
      · simp only [dictInsert, if_neg hak] at hp
        rcases List.mem_cons.mp hp with hp | hp
        · right; rw [hp]; exact List.mem_cons_self _ _
        · rcases ih hp with h1 | h1
          · left; exact h1
          · right; exact List.mem_cons_of_mem _ h1

theorem mem_foldl_dictInsert (vbs : List (String × Value)) :
    ∀ (acc : List (String × Value)) (p : String × Value),
      p ∈ List.foldl (fun d kv => dictInsert d kv.1 (cast kv.2)) acc vbs →
      p ∈ acc ∨ p.1 ∈ vbs.map Prod.fst := by
  induction vbs with
  | nil =>
      intro acc p hp
      left
      simpa using hp
  | cons kv vbs ih =>
      intro acc p hp
      rw [List.foldl_cons] at hp
      rcases ih (dictInsert acc kv.1 (cast kv.2)) p hp with h1 | h1
      · rcases mem_dictInsert acc kv.1 (cast kv.2) p h1 with h2 | h2
        · right; rw [List.map_cons, h2]; exact List.mem_cons_self _ _
        · left; exact h2
      · right; rw [List.map_cons]; exact List.mem_cons_of_mem _ h1

theorem mem_buildItems (vbs : List (String × Value)) (p : String × Value)
    (hp : p ∈ buildItems vbs) : p.1 ∈ vbs.map Prod.fst := by
  rcases mem_foldl_dictInsert vbs [] p hp with h | h
  · simp at h
  · exact h

theorem addFields_lookup (entry : List (String × Value)) (fields r : Record)
    (h : ∀ p ∈ entry, get_brief_name p.1 ≠ .ok "host")
    (hr : addFields entry fields = .ok r) :
    dictLookup r "host" = dictLookup fields "host" := by
  induction entry generalizing fields with
  | nil =>
      have hfr : fields = r := by simpa [addFields] using hr
      rw [hfr]
  | cons kv rest ih =>
      obtain ⟨key, value⟩ := kv
      rw [addFields] at hr
      cases hbk : get_brief_name key with
      | error e => rw [hbk] at hr; exact absurd hr (by simp)
      | ok bk =>
          rw [hbk] at hr
          have hbne : bk ≠ "host" := by
            intro hbk2
            exact h (key, value) (List.mem_cons_self _ _) (by rw [hbk, hbk2])
          have hrec := ih (dictInsert fields bk value)
            (fun p hp => h p (List.mem_cons_of_mem _ hp)) hr
          rw [hrec, dictLookup_dictInsert_ne fields bk "host" value hbne]

theorem interfacesLoop_mem (community : String) (nameH : List Iteration)
    (entries records : List Record)
    (h : interfacesLoop community nameH entries = .ok records) :
    ∀ r ∈ records, ∃ entry ∈ entries, ∃ nm : Value,
      get_snmp_name community nameH = .ok nm
      ∧ addFields entry [("host", nm)] = .ok r := by
  induction entries generalizing records with
  | nil =>
      have hrec : records = [] := by simpa [interfacesLoop] using h.symm
      subst hrec
      simp
  | cons entry rest ih =>
      rw [interfacesLoop] at h
      split at h
      · exact absurd h (by simp)
      · rename_i nm2 hn2
        split at h
        · exact absurd h (by simp)
        · rename_i fields haf
          split at h
          · exact absurd h (by simp)
          · rename_i l hrest
            have hrec : records = fields :: l := by simpa using h.symm
            subst hrec
            intro r hr
            rcases List.mem_cons.mp hr with hr | hr
            · subst hr
              exact ⟨entry, List.mem_cons_self _ _, nm2, hn2, haf⟩
            · obtain ⟨e2, he2, nmx, hnmx, hafx⟩ := ih l hrest r hr
              exact ⟨e2, List.mem_cons_of_mem _ he2, nmx, hnmx, hafx⟩

theorem get_snmp_interfaces_eq (community : String)
    (ifHandler nameHandler : List Iteration) :
    get_snmp_interfaces community ifHandler nameHandler
      = match fetch ifHandler with
        | .error e => .error e
        | .ok entries => interfacesLoop community nameHandler entries := rfl

/-- C9: whenever the interface-table query returns a Result Collection,
every Record in it contains a `host` field holding the resolved device name
(the coerced value bound to `SNMPv2-MIB::sysName.0`), in addition to the
interface-statistics fields (whose short names, being interface symbols,
never collide with `host`). -/
theorem C9_host_injected (community : String) (ifH nh : List Iteration)
    (records : List Record) (name : Value)
    (hname : get_snmp_name community nh = .ok name)
    (hok : get_snmp_interfaces community ifH nh = .ok records)
    (hbrief : ∀ it ∈ ifH, ∀ kv ∈ it.varBinds, get_brief_name kv.1 ≠ .ok "host") :
    ∀ r ∈ records, dictLookup r "host" = some name := by
  rw [get_snmp_interfaces_eq] at hok
  cases hfe : fetch ifH with
  | error e => rw [hfe] at hok; exact absurd hok (by simp)
  | ok entries =>
      rw [hfe] at hok
      replace hok : interfacesLoop community nh entries = .ok records := hok
      obtain ⟨hentries, _⟩ := fetch_ok_inv ifH entries hfe
      intro r hr
      obtain ⟨entry, hmem, nm, hnm, haf⟩ :=
        interfacesLoop_mem community nh entries records hok r hr
      have hnmeq : name = nm := by
        rw [hname] at hnm
        simpa using hnm
      subst hnmeq
      subst hentries
      obtain ⟨it, hit, hentry⟩ := List.mem_map.mp hmem
      have hkeys : ∀ p ∈ entry, get_brief_name p.1 ≠ .ok "host" := by
        intro p hp
        rw [← hentry] at hp
        obtain ⟨kv, hkv, hkveq⟩ := List.mem_map.mp (mem_buildItems it.varBinds p hp)
        rw [← hkveq]
        exact hbrief it hit kv hkv
      rw [addFields_lookup entry [("host", name)] r hkeys haf]
      simp [dictLookup]

/-- Witness for C9: the concrete one-interface walk of a device named
`router1` yields a Record whose `host` entry is that name. -/
theorem C9_witness :
    dictLookup [("host", Value.vStr "router1"), ("ifIndex", Value.vInt 1)]
        "host" = some (Value.vStr "router1") :=
  C9_host_injected "public"
    [⟨none, 0, [("IF-MIB::ifIndex.1", Value.vInt 1)]⟩]
    [⟨none, 0, [("SNMPv2-MIB::sysName.0", Value.vStr "router1")]⟩]
    [[("host", Value.vStr "router1"), ("ifIndex", Value.vInt 1)]]
    (Value.vStr "router1") (by decide) (by decide) (by decide)
    [("host", Value.vStr "router1"), ("ifIndex", Value.vInt 1)] (by decide)

end SnmpUtilities
